import Mathlib

/-!
Shallow embedding of `freppledb/execute/management/commands/scheduletasks.py`.

The file models the two entry points of the `scheduletasks` management
command:

* `executeScheduledTask` (the Schedule Executor): resolves a schedule by
  name, builds or validates a parent `Task`, runs the schedule's steps as
  child tasks through the step-runner adapter, aggregates failures and
  finalizes the parent task, with the `try/except/finally` structure of the
  source translated into explicit result values.
* `createScheduledTasks` (the Due-Schedule Harvester and Timer Rearmer):
  inside one transaction, turns every due schedule row into a new Waiting
  `Task`, advances the schedule's next-run time, then signals the worker
  and re-arms the OS one-shot timer at the earliest next-run time.

Timestamps are modelled as `Nat`.  Database rows live in explicit list
states.  Collaborators that are not part of the source file
(`computeNextRun`, `runTask`, `launchWorker`, the `at`/`schtasks` call) are
abstracted as oracles or recorded effects, as documented on each definition.
-/

namespace Sched

/-- Python exceptions raised by the command: Django's `CommandError`, a bare
`Exception(msg)`, and `TypeError` (raised by `str.join` on non-string
items).  `"%s" % e` on any of them yields the message. -/
inductive PyExc where
  | commandError (msg : String)
  | exc (msg : String)
  | typeError (msg : String)
deriving DecidableEq, Repr

/-- The text produced by `"%s" % e` for each modelled exception. -/
def PyExc.text : PyExc → String
  | .commandError m => m
  | .exc m => m
  | .typeError m => m

/-- A row of the `Task` ledger (`execute_task` table): nullable timestamps,
a free-form status string ("Waiting", percentage markers, "Done",
"Failed"), message, optional owning user, optional executing process id,
and an opaque arguments string. -/
structure Task where
  id : Nat
  name : String
  submitted : Option Nat
  started : Option Nat
  finished : Option Nat
  status : String
  message : String
  user : Option String
  processid : Option Nat
  arguments : String
deriving DecidableEq, Repr

/-- One step descriptor from a schedule's `data["tasks"]` list:
`step.get("name")`, `step.get("arguments", "")`,
`step.get("abort_on_failure", False)`. -/
structure Step where
  name : String
  arguments : String
  abort_on_failure : Bool
deriving DecidableEq, Repr

/-- A row of the `ScheduledTask` table: unique name (primary key), optional
owning user, nullable next-run timestamp, and the ordered step list held in
its `data` JSON field. -/
structure ScheduledTask where
  name : String
  user : Option String
  next_run : Option Nat
  tasks : List Step
deriving DecidableEq, Repr

/-- The task ledger of one database: the stored rows plus the next value of
the auto-increment primary key. -/
structure DBState where
  tasks : List Task
  nextId : Nat
deriving DecidableEq, Repr

/-- `task.save()` on an object without a primary key: insert the row with a
fresh auto-increment id; returns the new state and the assigned id. -/
def DBState.saveNew (db : DBState) (t : Task) : DBState × Nat :=
  (⟨db.tasks ++ [{ t with id := db.nextId }], db.nextId + 1⟩, db.nextId)

/-- `task.save()` on an object with primary key `i`, or a
`filter(pk=i).update(...)`: rewrite the row whose id is `i`. -/
def DBState.updateTask (db : DBState) (i : Nat) (f : Task → Task) : DBState :=
  ⟨db.tasks.map fun t => if t.id = i then f t else t, db.nextId⟩

/-- `Task.objects.get(pk=i)`, as an `Option`. -/
def DBState.getTask (db : DBState) (i : Nat) : Option Task :=
  db.tasks.find? fun t => t.id == i

/-- Well-formedness of a ledger: every stored id is below the
auto-increment counter, and ids are pairwise distinct. -/
def DBState.wf (db : DBState) : Prop :=
  (∀ t ∈ db.tasks, t.id < db.nextId) ∧ (db.tasks.map Task.id).Nodup

/-- Python's `", ".join(l)` where `l` is a list of *ints* (the accumulated
`failed` list holds integer task ids): the empty join is `""`, and a
non-empty join raises `TypeError` at its first non-`str` item. -/
def joinInts : List Nat → Except PyExc String
  | [] => .ok ""
  | _ :: _ => .error (.typeError "sequence item 0: expected str instance, int found")

/-- The child task built for one step of the loop:
`Task(name=step.get("name"), submitted=datetime.now(),
arguments=step.get("arguments", ""), user=user, status="Waiting")`. -/
def stepTask (user : Option String) (now : Nat) (step : Step) : Task :=
  { id := 0, name := step.name, submitted := some now, started := none, finished := none,
    status := "Waiting", message := "", user := user, processid := none,
    arguments := step.arguments }

/-- Modelled from the spec: `runTask` (imported from `runworker`, which is
not part of the source under scrutiny) synchronously drives the given
Waiting task to a terminal status reported by the execution engine.  The
engine is abstracted as an oracle `adapter` mapping the 1-based step index
to the terminal status the child ends in. -/
def runTask (adapter : Nat → String) (idx sid : Nat) (db : DBState) : DBState :=
  db.updateTask sid fun t => { t with status := adapter idx }

/-- The step loop of `executeScheduledTask` (source lines 120-146): for each
step, create and save a child task, update the parent's message and
percentage status by a filtered update, hand the child to the step runner,
re-read its terminal status, accumulate failed child ids, and on a failed
step whose `abort_on_failure` flag is set, finalize the parent as Failed
with message `"Failed at step i of N"` and raise `Exception` with that
message.  (`stepcount` is `len(tasklist)`, the same value the abort message
uses.)  Errors carry the database state at raise time. -/
def execLoop (adapter : Nat → String) (user : Option String)
    (parentId stepcount now : Nat) :
    List Step → Nat → List Nat → DBState → Except (PyExc × DBState) (DBState × List Nat)
  | [], _, failed, db => .ok (db, failed)
  | step :: rest, idx, failed, db =>
    let r := db.saveNew (stepTask user now step)
    let db1 := r.1
    let sid := r.2
    let db2 := db1.updateTask parentId fun t => { t with
        message := "Running task " ++ toString sid ++ " as step " ++ toString idx
          ++ " of " ++ toString stepcount,
        status := toString (idx * 100 / stepcount) ++ "%" }
    let db3 := runTask adapter idx sid db2
    let stat := ((db3.getTask sid).map Task.status).getD ""
    if stat = "Failed" then
      if step.abort_on_failure then
        let msg := "Failed at step " ++ toString idx ++ " of " ++ toString stepcount
        .error (.exc msg,
          db3.updateTask parentId fun t =>
            { t with message := msg, status := "Failed", finished := some now })
      else
        execLoop adapter user parentId stepcount now rest (idx + 1) (failed ++ [sid]) db3
    else
      execLoop adapter user parentId stepcount now rest (idx + 1) failed db3

/-- Task initialization of `executeScheduledTask` (source lines 89-113).
Python's `if "task" in options and options["task"]:` treats a task id of 0
as falsy, so `taskOpt.getD 0 ≠ 0` selects the supplied-task branch.  On a
missing id the raised `CommandError` leaves the local `task` unset (`none`
in the error payload); on a failed validation the local `task` is the
fetched row (`some tid`).  Returns the parent task id and the state after
`task.save`. -/
def execInit (user : Option String) (taskOpt : Option Nat) (now pid : Nat)
    (db : DBState) : Except (PyExc × Option Nat × DBState) (Nat × DBState) :=
  let tid := taskOpt.getD 0
  if tid ≠ 0 then
    match db.getTask tid with
    | none => .error (.commandError "Task identifier not found", none, db)
    | some t =>
      if t.started.isSome || t.finished.isSome || t.status != "Waiting"
          || (t.name != "runplan" && t.name != "frepple_run") then
        .error (.commandError "Invalid task identifier", some tid, db)
      else
        .ok (tid, db.updateTask tid fun _ =>
          { t with status := "0%", started := some now, processid := some pid })
  else
    let r := db.saveNew
      { id := 0, name := "scheduletasks", submitted := some now, started := some now,
        finished := none, status := "0%", message := "", user := user,
        processid := some pid, arguments := "" }
    .ok (r.2, r.1)

/-- The body of the `try` block after task initialization (source lines
116-158): run the step loop, then re-read the parent, clear its process id,
and set the final status and message — `"Done"`/`""` when no step failed,
otherwise `"Failed"`/`"Failed at tasks: " ++ ", ".join(failed)`, whose join
of integer ids raises before the final save. -/
def execMain (adapter : Nat → String) (user : Option String)
    (parentId now : Nat) (tasklist : List Step) (db : DBState) :
    Except (PyExc × Option Nat × DBState) DBState :=
  let stepcount := tasklist.length
  match execLoop adapter user parentId stepcount now tasklist 1 [] db with
  | .error (e, db1) => .error (e, some parentId, db1)
  | .ok (db1, failed) =>
    if failed.isEmpty then
      .ok (db1.updateTask parentId fun t =>
        { t with processid := none, status := "Done", message := "", finished := some now })
    else
      match joinInts failed with
      | .error e => .error (e, some parentId, db1)
      | .ok s =>
        .ok (db1.updateTask parentId fun t =>
          { t with processid := none, status := "Failed",
                   message := "Failed at tasks: " ++ s, finished := some now })

/-- The whole `try` block of `executeScheduledTask`: task initialization
followed by the step loop and finalization. -/
def execTry (adapter : Nat → String) (user : Option String) (taskOpt : Option Nat)
    (now pid : Nat) (tasklist : List Step) (db : DBState) :
    Except (PyExc × Option Nat × DBState) DBState :=
  match execInit user taskOpt now pid db with
  | .error e => .error e
  | .ok r => execMain adapter user r.1 now tasklist r.2

/-- The collaborators of one Executor invocation: the configured database
aliases (`settings.DATABASES`), the schedule store, the user table, and the
step-runner oracle giving each step's terminal status. -/
structure ExecEnv where
  databases : List String
  schedules : List ScheduledTask
  users : List String
  adapter : Nat → String

/-- The command-line options of `scheduletasks --schedule=...`:
`--database`, `--schedule`, optional `--user` and `--task`. -/
structure ExecOptions where
  database : String
  schedule : String
  user : Option String
  task : Option Nat
deriving DecidableEq, Repr

/-- Observable state of one Executor invocation: the task ledger of the
target database and the process-wide `_thread_locals.database` field. -/
structure ExecState where
  db : DBState
  threadLocalDb : Option String
deriving DecidableEq, Repr

/-- `Command.executeScheduledTask` (source lines 64-176).  The lookups of
the database alias, the schedule and the user happen before the `try`
block, so their `CommandError`s leave the state untouched.  Inside the
`try`, `_thread_locals.database` is set to the target database; the
`except` clause re-reads the parent task (when the local `task` was set)
and forces it to Failed with the error text before re-raising; the
`finally` clause resets `_thread_locals.database` to `None`. -/
def executeScheduledTask (env : ExecEnv) (opts : ExecOptions) (now pid : Nat)
    (st : ExecState) : ExecState × Option PyExc :=
  if opts.database ∈ env.databases then
    match env.schedules.find? (fun s => s.name == opts.schedule) with
    | none =>
      (st, some (.commandError
        ("No scheduled task found with name \x27" ++ opts.schedule ++ "\x27 ")))
    | some schedule =>
      match (match opts.user with
             | some u =>
               if u ∈ env.users then Except.ok (some u)
               else Except.error (PyExc.commandError ("User \x27" ++ u ++ "\x27 not found"))
             | none => Except.ok none : Except PyExc (Option String)) with
      | .error e => (st, some e)
      | .ok user =>
        -- try: _thread_locals.database := database
        match execTry env.adapter user opts.task now pid schedule.tasks st.db with
        | .ok db2 =>
          -- finally: _thread_locals.database := None
          (⟨db2, none⟩, none)
        | .error (e, taskRef, db2) =>
          let db3 := match taskRef with
            | some tid => db2.updateTask tid fun t =>
                { t with status := "Failed", message := e.text,
                         finished := some now, processid := none }
            | none => db2
          -- finally: _thread_locals.database := None; then re-raise
          (⟨db3, none⟩, some e)
  else
    (st, some (.commandError ("No database settings known for \x27" ++ opts.database ++ "\x27")))

/-- The due-row predicate of the harvest query:
`filter(next_run__isnull=False, next_run__lte=now)`. -/
def isDue (now : Nat) (s : ScheduledTask) : Bool :=
  match s.next_run with
  | some t => t ≤ now
  | none => false

/-- The ordering of the harvest query, `order_by("next_run", "name")`:
ascending next-run time, ties broken by name. -/
def dueLe (a b : ScheduledTask) : Bool :=
  a.next_run.getD 0 < b.next_run.getD 0 ||
    (a.next_run.getD 0 == b.next_run.getD 0 && !(decide (b.name < a.name)))

/-- Stable insertion into a `dueLe`-sorted list. -/
def insertDue (s : ScheduledTask) : List ScheduledTask → List ScheduledTask
  | [] => [s]
  | x :: xs => if dueLe s x then s :: x :: xs else x :: insertDue s xs

/-- Stable insertion sort realizing the `ORDER BY` of the harvest query. -/
def sortDue : List ScheduledTask → List ScheduledTask
  | [] => []
  | x :: xs => insertDue x (sortDue xs)

/-- The task the harvester creates for one due schedule:
`Task(name="schedule", submitted=now, status="Waiting", user=schedule.user,
arguments=schedule.name)`. -/
def scheduleTask (now : Nat) (s : ScheduledTask) : Task :=
  { id := 0, name := "schedule", submitted := some now, started := none, finished := none,
    status := "Waiting", message := "", user := s.user, processid := none,
    arguments := s.name }

/-- The persisted state the harvester works on: the schedule table and the
task ledger of one database. -/
structure HarvestState where
  schedules : List ScheduledTask
  db : DBState
deriving DecidableEq, Repr

/-- Calls the harvester makes to external collaborators: the single
worker-launch signal after the transaction commits, and the
timer-registration call (the `at`/`schtasks` invocation) of the Rearmer. -/
inductive Effect where
  | launchWorker
  | armTimer (t : Nat)
deriving DecidableEq, Repr

/-- The body of the harvest transaction (source lines 192-208): for each
claimed due schedule, in query order, save a new Waiting task and save the
schedule with its next-run recomputed by `computeNextRun(now)`.
`computeNextRun` lives in the models module, outside the source under
scrutiny; it is abstracted as the oracle `cnr`, anchored at the scan time
`now`. -/
def harvestLoop (cnr : ScheduledTask → Nat → Option Nat) (now : Nat) :
    List ScheduledTask → HarvestState → HarvestState
  | [], st => st
  | s :: rest, st =>
    let db1 := (st.db.saveNew (scheduleTask now s)).1
    let schedules1 := st.schedules.map fun x =>
      if x.name = s.name then { s with next_run := cnr s now } else x
    harvestLoop cnr now rest ⟨schedules1, db1⟩

/-- `aggregate(Min("next_run"))` over the schedules whose next-run is
non-null. -/
def minNextRun (scheds : List ScheduledTask) : Option Nat :=
  (scheds.filterMap ScheduledTask.next_run).min?

/-- Result of one harvest invocation: the persisted state, the calls made
to external collaborators, and the exception propagated to the caller, if
any. -/
structure HarvestResult where
  state : HarvestState
  effects : List Effect
  err : Option PyExc
deriving Repr

/-- `Command.createScheduledTasks` (source lines 178-263).  The due rows
are selected with `select_for_update(skip_locked=True)` inside one
`transaction.atomic` block, modelled as a single state transition; then
`launchWorker` is signalled once if any task was created, and the Rearmer
programs the platform one-shot timer at the earliest remaining next-run
time.  Only the posix branch (`at`) is modelled; `atOutcome` abstracts the
subprocess call: `none` stands for an `OSError` (turned into a
`CommandError`), `some rc` for a return code, which raises only when
negative.  The debugging `print` writes no persistent state and is not
modelled. -/
def createScheduledTasks (cnr : ScheduledTask → Nat → Option Nat)
    (atOutcome : Option Int) (databases : List String) (database : String)
    (now : Nat) (st : HarvestState) : HarvestResult :=
  if database ∈ databases then
    let due := sortDue (st.schedules.filter (isDue now))
    let st1 := harvestLoop cnr now due st
    -- `created` is set by every iteration of the harvest loop
    let created := !due.isEmpty
    let effs := if created then [Effect.launchWorker] else []
    match minNextRun st1.schedules with
    | none => ⟨st1, effs, none⟩
    | some t =>
      match atOutcome with
      | none =>
        ⟨st1, effs ++ [.armTimer t], some (.commandError "Can\x27t schedule the task: OSError")⟩
      | some rc =>
        ⟨st1, effs ++ [.armTimer t],
          if rc < 0 then some (.commandError "Non-zero exit code when scheduling the task")
          else none⟩
  else
    ⟨st, [], some (.commandError ("No database settings known for \x27" ++ database ++ "\x27"))⟩

/-! ### Basic ledger lemmas -/

/-- An update keyed on an id that no row of the list carries leaves the
list unchanged. -/
lemma map_upd_self (l : List Task) (p : Nat) (f : Task → Task)
    (h : ∀ t ∈ l, t.id ≠ p) :
    (l.map fun t => if t.id = p then f t else t) = l := by
  induction l with
  | nil => rfl
  | cons a as ih =>
    simp only [List.map_cons, List.cons.injEq]
    exact ⟨if_neg (h a (List.mem_cons_self a as)),
      ih fun t ht => h t (List.mem_cons_of_mem a ht)⟩

/-! ### Harvest lemmas -/

lemma insertDue_perm (s : ScheduledTask) (l : List ScheduledTask) :
    List.Perm (insertDue s l) (s :: l) := by
  induction l with
  | nil => exact List.Perm.refl _
  | cons x xs ih =>
    unfold insertDue
    split
    · exact List.Perm.refl _
    · exact (ih.cons x).trans (List.Perm.swap s x xs)

lemma sortDue_perm (l : List ScheduledTask) : List.Perm (sortDue l) l := by
  induction l with
  | nil => exact List.Perm.refl _
  | cons x xs ih => exact (insertDue_perm x (sortDue xs)).trans (ih.cons x)

/-- The tasks one harvest run appends for a claimed list of schedules, ids
starting at `n`. -/
def harvestKids (now : Nat) : List ScheduledTask → Nat → List Task
  | [], _ => []
  | s :: rest, n => { scheduleTask now s with id := n } :: harvestKids now rest (n + 1)

/-- The successive next-run rewrites the harvest loop applies to the
schedule table. -/
def applyRuns (cnr : ScheduledTask → Nat → Option Nat) (now : Nat) :
    List ScheduledTask → List ScheduledTask → List ScheduledTask
  | [], scheds => scheds
  | s :: rest, scheds => applyRuns cnr now rest
      (scheds.map fun x => if x.name = s.name then { s with next_run := cnr s now } else x)

lemma harvestLoop_eq (cnr : ScheduledTask → Nat → Option Nat) (now : Nat) :
    ∀ (l : List ScheduledTask) (st : HarvestState),
    harvestLoop cnr now l st =
      ⟨applyRuns cnr now l st.schedules,
       ⟨st.db.tasks ++ harvestKids now l st.db.nextId, st.db.nextId + l.length⟩⟩ := by
  intro l
  induction l with
  | nil => intro st; simp [harvestLoop, applyRuns, harvestKids]
  | cons s rest ih =>
    intro st
    unfold harvestLoop
    rw [ih]
    simp only [DBState.saveNew, applyRuns, harvestKids, HarvestState.mk.injEq,
      DBState.mk.injEq, List.append_assoc, List.singleton_append, List.length_cons]
    exact ⟨trivial, trivial, by omega⟩

lemma harvestKids_map (now : Nat) :
    ∀ (l : List ScheduledTask) (n : Nat),
    (harvestKids now l n).map (fun t => (t.name, t.status, t.submitted, t.arguments, t.user)) =
      l.map fun s => ("schedule", "Waiting", some now, s.name, s.user) := by
  intro l
  induction l with
  | nil => intro n; rfl
  | cons s rest ih => intro n; simp [harvestKids, scheduleTask, ih]

lemma harvestKids_args (now : Nat) :
    ∀ (l : List ScheduledTask) (n : Nat),
    (harvestKids now l n).map Task.arguments = l.map ScheduledTask.name := by
  intro l
  induction l with
  | nil => intro n; rfl
  | cons s rest ih => intro n; simp [harvestKids, scheduleTask, ih]

lemma insertDue_ne_nil (s : ScheduledTask) (l : List ScheduledTask) :
    insertDue s l ≠ [] := by
  cases l with
  | nil => simp [insertDue]
  | cons x xs =>
    unfold insertDue
    split
    · simp
    · simp

lemma sortDue_eq_nil_iff (l : List ScheduledTask) : sortDue l = [] ↔ l = [] := by
  cases l with
  | nil => simp [sortDue]
  | cons x xs =>
    simp only [sortDue]
    exact ⟨fun h => absurd h (insertDue_ne_nil x (sortDue xs)), fun h => by cases h⟩

lemma minNextRun_eq_none (scheds : List ScheduledTask)
    (h : ∀ s ∈ scheds, s.next_run = none) : minNextRun scheds = none := by
  unfold minNextRun
  rw [List.filterMap_eq_nil_iff.2 h]
  rfl

/-- The state the harvest transaction commits does not depend on the rearm
branch taken afterwards. -/
lemma createScheduledTasks_state (cnr : ScheduledTask → Nat → Option Nat)
    (atOutcome : Option Int) (databases : List String) (database : String)
    (now : Nat) (st : HarvestState) (hdb : database ∈ databases) :
    (createScheduledTasks cnr atOutcome databases database now st).state =
      harvestLoop cnr now (sortDue (st.schedules.filter (isDue now))) st := by
  cases hmin : minNextRun
      (harvestLoop cnr now (sortDue (st.schedules.filter (isDue now))) st).schedules with
  | none => simp only [createScheduledTasks, if_pos hdb, hmin]
  | some t =>
    cases atOutcome with
    | none => simp only [createScheduledTasks, if_pos hdb, hmin]
    | some rc => simp only [createScheduledTasks, if_pos hdb, hmin]

lemma harvestKids_length (now : Nat) :
    ∀ (l : List ScheduledTask) (n : Nat), (harvestKids now l n).length = l.length := by
  intro l
  induction l with
  | nil => intro n; rfl
  | cons s rest ih => intro n; simp [harvestKids, ih]

lemma applyRuns_eq_map (cnr : ScheduledTask → Nat → Option Nat) (now : Nat) :
    ∀ (l scheds : List ScheduledTask),
    (scheds.map ScheduledTask.name).Nodup →
    (∀ s ∈ l, s ∈ scheds) →
    (l.map ScheduledTask.name).Nodup →
    applyRuns cnr now l scheds =
      scheds.map fun x =>
        if x.name ∈ l.map ScheduledTask.name then { x with next_run := cnr x now } else x := by
  intro l
  induction l with
  | nil =>
    intro scheds _ _ _
    simp [applyRuns]
  | cons s rest ih =>
    intro scheds hnd hsub hlnd
    unfold applyRuns
    have hname : ∀ x ∈ scheds, x.name = s.name → x = s :=
      fun x hx hxs => List.inj_on_of_nodup_map hnd hx (hsub s (List.mem_cons_self s rest)) hxs
    have hrestnd : ((scheds.map fun x =>
        if x.name = s.name then { s with next_run := cnr s now } else x).map
          ScheduledTask.name).Nodup := by
      have : ((scheds.map fun x =>
          if x.name = s.name then { s with next_run := cnr s now } else x).map
            ScheduledTask.name) = scheds.map ScheduledTask.name := by
        rw [List.map_map]
        refine List.map_congr_left fun x hx => ?_
        by_cases h : x.name = s.name
        · simp [h]
        · simp [h]
      rw [this]
      exact hnd
    have hsname : s.name ∉ rest.map ScheduledTask.name := by
      have := hlnd
      simp only [List.map_cons, List.nodup_cons] at this
      exact this.1
    have hrestsub : ∀ x ∈ rest, x ∈ scheds.map fun y =>
        if y.name = s.name then { s with next_run := cnr s now } else y := by
      intro x hx
      have hxs : x ∈ scheds := hsub x (List.mem_cons_of_mem s hx)
      have hne : x.name ≠ s.name := by
        intro h
        exact hsname (h ▸ List.mem_map_of_mem ScheduledTask.name hx)
      have : (fun y => if y.name = s.name then { s with next_run := cnr s now } else y) x
          = x := if_neg hne
      exact this ▸ List.mem_map_of_mem _ hxs
    have hrestlnd : (rest.map ScheduledTask.name).Nodup := by
      simp only [List.map_cons, List.nodup_cons] at hlnd
      exact hlnd.2
    rw [ih _ hrestnd hrestsub hrestlnd, List.map_map]
    refine List.map_congr_left fun x hx => ?_
    simp only [Function.comp_apply]
    by_cases h : x.name = s.name
    · have hx2 : x = s := hname x hx h
      subst hx2
      simp [hsname, List.mem_cons]
    · simp only [if_neg h]
      by_cases h2 : x.name ∈ rest.map ScheduledTask.name
      · simp [h2, List.mem_cons, h]
      · simp [h2, List.mem_cons, h]

/-- Bool test selecting the timer-registration effect. -/
def Effect.isArm : Effect → Bool
  | .armTimer _ => true
  | .launchWorker => false

/-! ### Step-loop lemmas -/

/-- No step of the list, positions starting at `idx`, both fails (per the
adapter) and carries the abort flag. -/
def noAbortUpTo (adapter : Nat → String) : List Step → Nat → Prop
  | [], _ => True
  | step :: rest, idx =>
    ¬(adapter idx = "Failed" ∧ step.abort_on_failure = true) ∧
      noAbortUpTo adapter rest (idx + 1)

/-- The child rows a run of the loop stores for the given steps, positions
from `idx`, ids from `n`, each ending in its adapter status. -/
def loopKids (adapter : Nat → String) (user : Option String) (now : Nat) :
    List Step → Nat → Nat → List Task
  | [], _, _ => []
  | step :: rest, idx, n =>
    { stepTask user now step with id := n, status := adapter idx } ::
      loopKids adapter user now rest (idx + 1) (n + 1)

lemma getTask_append (l : List Task) (k : Task) (m i : Nat) (hk : k.id = i)
    (h : ∀ t ∈ l, t.id ≠ i) :
    DBState.getTask ⟨l ++ [k], m⟩ i = some k := by
  unfold DBState.getTask
  induction l with
  | nil => simp [hk]
  | cons a as ih =>
    rw [List.cons_append, List.find?_cons_of_neg _
      (by simp [h a (List.mem_cons_self a as)])]
    exact ih fun t ht => h t (List.mem_cons_of_mem a ht)

lemma forall_id_map_upd (l : List Task) (p x : Nat) (f : Task → Task)
    (hf : ∀ t, (f t).id = t.id) (h : ∀ t ∈ l, t.id ≠ x) :
    ∀ t ∈ (l.map fun t => if t.id = p then f t else t), t.id ≠ x := by
  intro t ht
  obtain ⟨a, ha, rfl⟩ := List.mem_map.1 ht
  by_cases hc : a.id = p
  · rw [if_pos hc, hf]
    exact h a ha
  · rw [if_neg hc]
    exact h a ha

lemma map_upd_upd (l : List Task) (p : Nat) (f g comb : Task → Task)
    (hf : ∀ t, (f t).id = t.id)
    (hcomb : ∀ t, g (f t) = comb t) :
    ((l.map fun t => if t.id = p then f t else t).map
        fun t => if t.id = p then g t else t) =
      l.map fun t => if t.id = p then comb t else t := by
  rw [List.map_map]
  refine List.map_congr_left fun t ht => ?_
  by_cases h : t.id = p
  · simp only [Function.comp_apply, if_pos h]
    rw [if_pos (by rw [hf]; exact h)]
    exact hcomb t
  · simp only [Function.comp_apply, if_neg h, if_neg h]

/-- One iteration of the step loop: the saved child gets id `db.nextId`,
is driven to its adapter status, and the parent row is rewritten — either
finalized Failed when the failing step aborts, or updated with the running
message and percentage before the loop continues. -/
lemma execLoop_cons (adapter : Nat → String) (user : Option String)
    (parentId stepcount now : Nat) (s : Step) (rest : List Step) (idx : Nat)
    (failed : List Nat) (db : DBState)
    (hlt : ∀ t ∈ db.tasks, t.id < db.nextId)
    (hp : parentId < db.nextId) :
    execLoop adapter user parentId stepcount now (s :: rest) idx failed db =
      if adapter idx = "Failed" then
        if s.abort_on_failure then
          .error (.exc ("Failed at step " ++ toString idx ++ " of "
              ++ toString stepcount),
            ⟨(db.tasks.map fun t => if t.id = parentId then
                { t with
                  message := "Failed at step " ++ toString idx ++ " of "
                    ++ toString stepcount,
                  status := "Failed", finished := some now } else t)
              ++ [{ stepTask user now s with id := db.nextId, status := adapter idx }],
             db.nextId + 1⟩)
        else
          execLoop adapter user parentId stepcount now rest (idx + 1)
            (failed ++ [db.nextId])
            ⟨(db.tasks.map fun t => if t.id = parentId then
                { t with
                  message := "Running task " ++ toString db.nextId ++ " as step "
                    ++ toString idx ++ " of " ++ toString stepcount,
                  status := toString (idx * 100 / stepcount) ++ "%" } else t)
              ++ [{ stepTask user now s with id := db.nextId, status := adapter idx }],
             db.nextId + 1⟩
      else
        execLoop adapter user parentId stepcount now rest (idx + 1) failed
          ⟨(db.tasks.map fun t => if t.id = parentId then
              { t with
                message := "Running task " ++ toString db.nextId ++ " as step "
                  ++ toString idx ++ " of " ++ toString stepcount,
                status := toString (idx * 100 / stepcount) ++ "%" } else t)
            ++ [{ stepTask user now s with id := db.nextId, status := adapter idx }],
           db.nextId + 1⟩ := by
  have hids : ∀ t ∈ db.tasks, t.id ≠ db.nextId := fun t ht => Nat.ne_of_lt (hlt t ht)
  have hnp : ¬(db.nextId = parentId) := Ne.symm (Nat.ne_of_lt hp)
  rw [execLoop]
  simp only [DBState.saveNew, DBState.updateTask, runTask, List.map_append,
    List.map_cons, List.map_nil, if_neg hnp, if_pos rfl, if_true]
  rw [map_upd_self
      (List.map (fun (t : Task) => if t.id = parentId then
        { t with
          message := "Running task " ++ toString db.nextId ++ " as step "
            ++ toString idx ++ " of " ++ toString stepcount,
          status := toString (idx * 100 / stepcount) ++ "%" } else t) db.tasks)
      db.nextId (fun (t : Task) => { t with status := adapter idx })
      (forall_id_map_upd db.tasks parentId db.nextId
        (fun (t : Task) => { t with
          message := "Running task " ++ toString db.nextId ++ " as step "
            ++ toString idx ++ " of " ++ toString stepcount,
          status := toString (idx * 100 / stepcount) ++ "%" })
        (fun t => rfl) hids)]
  rw [getTask_append
      (List.map (fun (t : Task) => if t.id = parentId then
        { t with
          message := "Running task " ++ toString db.nextId ++ " as step "
            ++ toString idx ++ " of " ++ toString stepcount,
          status := toString (idx * 100 / stepcount) ++ "%" } else t) db.tasks)
      { stepTask user now s with id := db.nextId, status := adapter idx }
      (db.nextId + 1) db.nextId rfl
      (forall_id_map_upd db.tasks parentId db.nextId
        (fun (t : Task) => { t with
          message := "Running task " ++ toString db.nextId ++ " as step "
            ++ toString idx ++ " of " ++ toString stepcount,
          status := toString (idx * 100 / stepcount) ++ "%" })
        (fun t => rfl) hids)]
  simp only [Option.map_some', Option.getD_some]
  by_cases hF : adapter idx = "Failed"
  · rw [if_pos hF, if_pos hF]
    by_cases hA : s.abort_on_failure = true
    · rw [if_pos hA, if_pos hA,
        map_upd_upd db.tasks parentId
          (fun (t : Task) => { t with
            message := "Running task " ++ toString db.nextId ++ " as step "
              ++ toString idx ++ " of " ++ toString stepcount,
            status := toString (idx * 100 / stepcount) ++ "%" })
          (fun (t : Task) => { t with
            message := "Failed at step " ++ toString idx ++ " of " ++ toString stepcount,
            status := "Failed", finished := some now })
          (fun (t : Task) => { t with
            message := "Failed at step " ++ toString idx ++ " of " ++ toString stepcount,
            status := "Failed", finished := some now })
          (fun t => rfl) (fun t => rfl)]
    · rw [if_neg hA, if_neg hA]
  · rw [if_neg hF, if_neg hF]

lemma wf_step (l : List Task) (n p : Nat) (f : Task → Task)
    (hf : ∀ t, (f t).id = t.id)
    (hlt : ∀ t ∈ l, t.id < n) (k : Task) (hk : k.id = n) :
    ∀ t ∈ (l.map fun t => if t.id = p then f t else t) ++ [k], t.id < n + 1 := by
  intro t ht
  rcases List.mem_append.1 ht with h | h
  · obtain ⟨a, ha, rfl⟩ := List.mem_map.1 h
    by_cases hc : a.id = p
    · rw [if_pos hc, hf]
      exact Nat.lt_succ_of_lt (hlt a ha)
    · rw [if_neg hc]
      exact Nat.lt_succ_of_lt (hlt a ha)
  · rw [List.mem_singleton.1 h, hk]
    exact Nat.lt_succ_self n

/-- Closed form of the step loop when a prefix runs without triggering an
abort and the following step both fails and carries the abort flag: the
loop stores exactly the prefix's children plus the failing child,
finalizes the parent row Failed with "Failed at step k of N", and raises
`Exception` with that message. -/
lemma execLoop_abort (adapter : Nat → String) (user : Option String)
    (parentId stepcount now : Nat) :
    ∀ (pre : List Step) (stepK : Step) (post : List Step) (idx : Nat)
      (failed : List Nat) (db : DBState),
    (∀ t ∈ db.tasks, t.id < db.nextId) →
    parentId < db.nextId →
    noAbortUpTo adapter pre idx →
    adapter (idx + pre.length) = "Failed" →
    stepK.abort_on_failure = true →
    execLoop adapter user parentId stepcount now (pre ++ stepK :: post) idx failed db =
      .error (.exc ("Failed at step " ++ toString (idx + pre.length) ++ " of "
          ++ toString stepcount),
        ⟨(db.tasks.map fun t => if t.id = parentId then
            { t with
              message := "Failed at step " ++ toString (idx + pre.length) ++ " of "
                ++ toString stepcount,
              status := "Failed", finished := some now } else t)
          ++ (loopKids adapter user now pre idx db.nextId
            ++ [{ stepTask user now stepK with
                    id := db.nextId + pre.length,
                    status := adapter (idx + pre.length) }]),
         db.nextId + pre.length + 1⟩) := by
  intro pre
  induction pre with
  | nil =>
    intro stepK post idx failed db hlt hp hna hfail habort
    simp only [List.length_nil, Nat.add_zero] at hfail ⊢
    rw [List.nil_append,
      execLoop_cons adapter user parentId stepcount now stepK post idx failed db hlt hp,
      if_pos hfail, if_pos habort, hfail]
    simp [loopKids]
  | cons p pre' ih =>
    intro stepK post idx failed db hlt hp hna hfail habort
    have hna2 : ¬(adapter idx = "Failed" ∧ p.abort_on_failure = true) ∧
        noAbortUpTo adapter pre' (idx + 1) := hna
    have hnp : ¬(db.nextId = parentId) := Ne.symm (Nat.ne_of_lt hp)
    have hfail' : adapter (idx + 1 + pre'.length) = "Failed" := by
      have heq : idx + 1 + pre'.length = idx + (p :: pre').length := by
        simp only [List.length_cons]
        omega
      rw [heq]
      exact hfail
    have hwf' := wf_step db.tasks db.nextId parentId
      (fun (t : Task) => { t with
        message := "Running task " ++ toString db.nextId ++ " as step "
          ++ toString idx ++ " of " ++ toString stepcount,
        status := toString (idx * 100 / stepcount) ++ "%" })
      (fun t => rfl) hlt
      { stepTask user now p with id := db.nextId, status := adapter idx } rfl
    have hcomp : List.map (fun (t : Task) => if t.id = parentId then
        { t with
          message := "Failed at step " ++ toString (idx + 1 + pre'.length) ++ " of "
            ++ toString stepcount,
          status := "Failed", finished := some now } else t)
        (List.map (fun (t : Task) => if t.id = parentId then
          { t with
            message := "Running task " ++ toString db.nextId ++ " as step "
              ++ toString idx ++ " of " ++ toString stepcount,
            status := toString (idx * 100 / stepcount) ++ "%" } else t) db.tasks) =
        List.map (fun (t : Task) => if t.id = parentId then
          { t with
            message := "Failed at step " ++ toString (idx + 1 + pre'.length) ++ " of "
              ++ toString stepcount,
            status := "Failed", finished := some now } else t) db.tasks :=
      map_upd_upd db.tasks parentId _ _ _ (fun t => rfl) (fun t => rfl)
    rw [List.cons_append,
      execLoop_cons adapter user parentId stepcount now p (pre' ++ stepK :: post)
        idx failed db hlt hp]
    by_cases hF : adapter idx = "Failed"
    · rw [if_pos hF,
        if_neg (fun hA => hna2.1 ⟨hF, hA⟩),
        ih stepK post (idx + 1) (failed ++ [db.nextId]) _ hwf'
          (Nat.lt_succ_of_lt hp) hna2.2 hfail' habort]
      simp only [List.map_append, List.map_cons, List.map_nil, if_neg hnp, hcomp,
        loopKids, List.length_cons]
      have h1 : idx + 1 + pre'.length = idx + (pre'.length + 1) := by omega
      have h2 : db.nextId + 1 + pre'.length = db.nextId + (pre'.length + 1) := by omega
      rw [h1, h2]
      simp [List.append_assoc]
    · rw [if_neg hF,
        ih stepK post (idx + 1) failed _ hwf'
          (Nat.lt_succ_of_lt hp) hna2.2 hfail' habort]
      simp only [List.map_append, List.map_cons, List.map_nil, if_neg hnp, hcomp,
        loopKids, List.length_cons]
      have h1 : idx + 1 + pre'.length = idx + (pre'.length + 1) := by omega
      have h2 : db.nextId + 1 + pre'.length = db.nextId + (pre'.length + 1) := by omega
      rw [h1, h2]
      simp [List.append_assoc]

lemma loopKids_ids (adapter : Nat → String) (user : Option String) (now : Nat) :
    ∀ (l : List Step) (idx n : Nat), ∀ t ∈ loopKids adapter user now l idx n, n ≤ t.id := by
  intro l
  induction l with
  | nil =>
    intro idx n t ht
    cases ht
  | cons s rest ih =>
    intro idx n t ht
    rcases List.mem_cons.1 ht with h | h
    · rw [h]
    · exact Nat.le_of_succ_le (ih (idx + 1) (n + 1) t h)

/-! ### Concrete fixtures -/

/-- A due schedule (next run 3, owner "u"). -/
def schedDueA : ScheduledTask := { name := "a", user := some "u", next_run := some 3, tasks := [] }

/-- A schedule due later (next run 100). -/
def schedFuture : ScheduledTask := { name := "b", user := none, next_run := some 100, tasks := [] }

/-- A second due schedule (next run 2). -/
def schedDueC : ScheduledTask := { name := "c", user := none, next_run := some 2, tasks := [] }

/-- A schedule with no next-run time. -/
def schedNull : ScheduledTask := { name := "n", user := none, next_run := none, tasks := [] }

/-- A two-step schedule whose first step aborts on failure. -/
def schedAbort : ScheduledTask :=
  { name := "s1", user := none, next_run := none,
    tasks := [{ name := "importA", arguments := "", abort_on_failure := true },
              { name := "importB", arguments := "", abort_on_failure := false }] }

/-- An environment where every child task ends Failed, over the aborting
schedule. -/
def envAbort : ExecEnv :=
  { databases := ["default"], schedules := [schedAbort], users := [],
    adapter := fun _ => "Failed" }

/-- A one-step schedule whose step has no abort-on-failure flag. -/
def schedOneStep : ScheduledTask :=
  { name := "s1", user := none, next_run := none,
    tasks := [{ name := "runplan", arguments := "", abort_on_failure := false }] }

/-- An environment where the single step's child task ends Failed. -/
def envOneStepFail : ExecEnv :=
  { databases := ["default"], schedules := [schedOneStep], users := [],
    adapter := fun _ => "Failed" }

/-- Options running schedule `s1` on the default database with a fresh
parent task. -/
def optsFresh : ExecOptions :=
  { database := "default", schedule := "s1", user := none, task := none }

/-- A zero-step schedule. -/
def schedNoSteps : ScheduledTask :=
  { name := "s1", user := none, next_run := none, tasks := [] }

/-- An environment holding only the zero-step schedule. -/
def envNoSteps : ExecEnv :=
  { databases := ["default"], schedules := [schedNoSteps], users := [],
    adapter := fun _ => "Done" }

/-- A stored task that is not a fresh Waiting run-entry-point task: its
status is already Done. -/
def doneTask : Task :=
  { id := 1, name := "runplan", submitted := some 1, started := none, finished := none,
    status := "Done", message := "", user := none, processid := none, arguments := "" }

/-! ### C3 -/

/-- C3: the claim states that when some children end Failed (no
abort-on-failure), the parent ends Failed with a message listing the failed
child ids comma-joined.  Evaluating the Executor on a schedule with one
step whose child ends Failed shows the code instead raises `TypeError`
from `", ".join(failed)` over the integer id list: the parent's final
message is the `TypeError` text and the command propagates the error. -/
theorem executor_failed_id_join_raises_typeError :
    executeScheduledTask envOneStepFail optsFresh 5 99 ⟨⟨[], 0⟩, none⟩ =
      (⟨⟨[{ id := 0, name := "scheduletasks", submitted := some 5, started := some 5,
            finished := some 5, status := "Failed",
            message := "sequence item 0: expected str instance, int found",
            user := none, processid := none, arguments := "" },
          { id := 1, name := "runplan", submitted := some 5, started := none,
            finished := none, status := "Failed", message := "", user := none,
            processid := none, arguments := "" }], 2⟩, none⟩,
       some (.typeError "sequence item 0: expected str instance, int found")) := rfl

/-! ### C9 -/

/-- C9: the claim states that every failure to program the one-shot timer
is surfaced as a hard error.  Evaluating the harvester with the `at` call
returning exit code 1 (a failure) shows the timer registration is attempted
and no error is raised: the code only raises for a negative return code
(`retcode < 0`) or an `OSError`, although its own error message reads
"Non-zero exit code when scheduling the task". -/
theorem rearmer_ignores_positive_exit_code :
    createScheduledTasks (fun _ _ => none) (some 1) ["default"] "default" 5
        ⟨[{ name := "s", user := none, next_run := some 100, tasks := [] }], ⟨[], 0⟩⟩ =
      ⟨⟨[{ name := "s", user := none, next_run := some 100, tasks := [] }], ⟨[], 0⟩⟩,
        [Effect.armTimer 100], none⟩ := rfl

/-! ### C5 -/

/-- C5 counterexample: the claim states that a run-schedule invocation with
an invalid task id fails "without mutating any persisted state (in
particular the supplied task is left unchanged)".  With a stored task whose
status is Done, the invocation does fail with the invalid-task error, but
the supplied task is rewritten by the failure handler, so it is not left
unchanged. -/
theorem executor_invalid_task_counterexample :
    (executeScheduledTask envNoSteps { optsFresh with task := some 1 } 7 42
        ⟨⟨[doneTask], 2⟩, none⟩).2 = some (.commandError "Invalid task identifier") ∧
    (executeScheduledTask envNoSteps { optsFresh with task := some 1 } 7 42
        ⟨⟨[doneTask], 2⟩, none⟩).1.db.getTask 1 ≠ some doneTask := by
  exact ⟨rfl, by decide⟩

/-- C5 (amended): an invocation with a task id whose stored task is already
started, already finished, has a non-Waiting status, or a name outside
{runplan, frepple_run} raises `CommandError "Invalid task identifier"`
before any child task is created, but the top-level failure handler then
rewrites the supplied task to status Failed with the error text as message,
finished set and process id cleared. -/
theorem executor_invalid_task_raises_and_marks_failed
    (env : ExecEnv) (opts : ExecOptions) (now pid tid : Nat) (st : ExecState)
    (t : Task) (sched : ScheduledTask)
    (hdb : opts.database ∈ env.databases)
    (hs : env.schedules.find? (fun s => s.name == opts.schedule) = some sched)
    (hu : opts.user = none)
    (ht : opts.task = some tid) (htid : tid ≠ 0)
    (hget : st.db.getTask tid = some t)
    (hbad : (t.started.isSome || t.finished.isSome || t.status != "Waiting"
        || (t.name != "runplan" && t.name != "frepple_run")) = true) :
    executeScheduledTask env opts now pid st =
      (⟨st.db.updateTask tid fun x =>
          { x with status := "Failed", message := "Invalid task identifier",
                   finished := some now, processid := none }, none⟩,
       some (.commandError "Invalid task identifier")) := by
  unfold executeScheduledTask execTry execInit
  rw [if_pos hdb, hs, hu, ht]
  simp only [Option.getD_some, hget]
  rw [if_pos htid, if_pos hbad]
  rfl

/-- C5 witness: the amended theorem applied at the concrete Done task. -/
theorem executor_invalid_task_raises_and_marks_failed_witness :
    (doneTask.started.isSome || doneTask.finished.isSome || doneTask.status != "Waiting"
        || (doneTask.name != "runplan" && doneTask.name != "frepple_run")) = true ∧
    executeScheduledTask envNoSteps { optsFresh with task := some 1 } 7 42
        ⟨⟨[doneTask], 2⟩, none⟩ =
      (⟨DBState.updateTask ⟨[doneTask], 2⟩ 1 fun x =>
          { x with status := "Failed", message := "Invalid task identifier",
                   finished := some 7, processid := none }, none⟩,
       some (.commandError "Invalid task identifier")) :=
  ⟨by decide,
    executor_invalid_task_raises_and_marks_failed envNoSteps
      { optsFresh with task := some 1 } 7 42 1 ⟨⟨[doneTask], 2⟩, none⟩ doneTask
      schedNoSteps (by decide) rfl rfl rfl (by decide) rfl (by decide)⟩

/-! ### C10 -/

/-- C10 counterexample: the claim states that every invocation of the
Executor sets the thread-local database field and resets it to None on
every exit path.  An invocation with an unknown database alias raises
before the `try` block: it returns with the thread-local field still
holding its previous value, neither set to the target database nor reset
to None. -/
theorem executor_thread_local_counterexample :
    (executeScheduledTask ⟨[], [], [], fun _ => ""⟩ ⟨"x", "s", none, none⟩ 0 0
        ⟨⟨[], 0⟩, some "leftover"⟩).1.threadLocalDb = some "leftover" ∧
    (executeScheduledTask ⟨[], [], [], fun _ => ""⟩ ⟨"x", "s", none, none⟩ 0 0
        ⟨⟨[], 0⟩, some "leftover"⟩).2 =
      some (.commandError "No database settings known for \x27x\x27") :=
  ⟨rfl, rfl⟩

/-- C10 (amended): once the initial lookups succeed (known database alias,
schedule found, user resolved), the `try` block sets the thread-local
database field and the `finally` clause resets it to None on every exit
path, normal completion as well as any raised error; invocations failing
those initial lookups return with the thread-local field untouched. -/
theorem executor_resets_thread_local_after_lookups
    (env : ExecEnv) (opts : ExecOptions) (now pid : Nat) (st : ExecState)
    (sched : ScheduledTask)
    (hdb : opts.database ∈ env.databases)
    (hs : env.schedules.find? (fun s => s.name == opts.schedule) = some sched)
    (hu : ∀ u, opts.user = some u → u ∈ env.users) :
    (executeScheduledTask env opts now pid st).1.threadLocalDb = none := by
  cases hou : opts.user with
  | none =>
    simp only [executeScheduledTask, if_pos hdb, hs, hou]
    split
    · rfl
    · rfl
  | some u =>
    simp only [executeScheduledTask, if_pos hdb, hs, hou, if_pos (hu u hou)]
    split
    · rfl
    · rfl

/-- C10 witness: the amended theorem applied at a concrete valid
invocation. -/
theorem executor_resets_thread_local_after_lookups_witness :
    optsFresh.database ∈ envNoSteps.databases ∧
    (executeScheduledTask envNoSteps optsFresh 3 9
        ⟨⟨[], 0⟩, some "stale"⟩).1.threadLocalDb = none :=
  ⟨by decide,
    executor_resets_thread_local_after_lookups envNoSteps optsFresh 3 9
      ⟨⟨[], 0⟩, some "stale"⟩ schedNoSteps (by decide) rfl
      (fun u h => by simp [optsFresh] at h)⟩

/-! ### C6 -/

/-- C6: running the Executor on a schedule with an empty step list creates
no child tasks; the parent task is the only new row and finishes with
status Done, empty message, finished set and process id cleared, and no
error is raised. -/
theorem executor_zero_steps_completes_done
    (env : ExecEnv) (opts : ExecOptions) (now pid : Nat) (st : ExecState)
    (sched : ScheduledTask)
    (hdb : opts.database ∈ env.databases)
    (hs : env.schedules.find? (fun s => s.name == opts.schedule) = some sched)
    (hu : opts.user = none) (ht : opts.task = none)
    (hsteps : sched.tasks = [])
    (hwf : ∀ t ∈ st.db.tasks, t.id < st.db.nextId) :
    executeScheduledTask env opts now pid st =
      (⟨⟨st.db.tasks ++
          [{ id := st.db.nextId, name := "scheduletasks", submitted := some now,
             started := some now, finished := some now, status := "Done", message := "",
             user := none, processid := none, arguments := "" }],
         st.db.nextId + 1⟩, none⟩, none) := by
  have hini : execInit none opts.task now pid st.db =
      .ok (st.db.nextId, ⟨st.db.tasks ++
        [{ id := st.db.nextId, name := "scheduletasks", submitted := some now,
           started := some now, finished := none, status := "0%", message := "",
           user := none, processid := some pid, arguments := "" }], st.db.nextId + 1⟩) := by
    rw [ht]
    rfl
  have hmain : execMain env.adapter none st.db.nextId now sched.tasks
      ⟨st.db.tasks ++
        [{ id := st.db.nextId, name := "scheduletasks", submitted := some now,
           started := some now, finished := none, status := "0%", message := "",
           user := none, processid := some pid, arguments := "" }], st.db.nextId + 1⟩ =
      .ok ⟨st.db.tasks ++
        [{ id := st.db.nextId, name := "scheduletasks", submitted := some now,
           started := some now, finished := some now, status := "Done", message := "",
           user := none, processid := none, arguments := "" }], st.db.nextId + 1⟩ := by
    rw [hsteps]
    show Except.ok (DBState.updateTask _ st.db.nextId _) = _
    unfold DBState.updateTask
    rw [List.map_append, map_upd_self _ _ _ fun t ht2 => Nat.ne_of_lt (hwf t ht2),
      List.map_cons, List.map_nil, if_pos rfl]
  simp only [executeScheduledTask, if_pos hdb, hs, hu, execTry, hini, hmain]

/-- C6 witness: the zero-steps theorem applied at the concrete zero-step
schedule. -/
theorem executor_zero_steps_completes_done_witness :
    schedNoSteps.tasks = [] ∧
    executeScheduledTask envNoSteps optsFresh 5 99 ⟨⟨[], 0⟩, none⟩ =
      (⟨⟨[{ id := 0, name := "scheduletasks", submitted := some 5,
            started := some 5, finished := some 5, status := "Done", message := "",
            user := none, processid := none, arguments := "" }], 1⟩, none⟩, none) :=
  ⟨rfl, by
    exact executor_zero_steps_completes_done envNoSteps optsFresh 5 99
      ⟨⟨[], 0⟩, none⟩ schedNoSteps (by decide) rfl rfl rfl rfl
      (by intro t ht; cases ht)⟩

/-! ### C1 -/

/-- C1: with a known database alias and distinct schedule names, one
harvest scan — a single transaction, modelled as one state transition —
appends exactly one new Task per due schedule (name "schedule", status
Waiting, submitted at the scan time `now`, arguments the schedule's name,
owner the schedule's owner), rewrites exactly the due schedules' next-run
through the recurrence oracle anchored at `now`, and leaves schedules with
a null or future next-run unchanged. -/
theorem harvester_one_task_per_due_schedule
    (cnr : ScheduledTask → Nat → Option Nat) (atOutcome : Option Int)
    (databases : List String) (database : String) (now : Nat) (st : HarvestState)
    (hdb : database ∈ databases)
    (hnd : (st.schedules.map ScheduledTask.name).Nodup) :
    ∃ created : List Task,
      (createScheduledTasks cnr atOutcome databases database now st).state =
        ⟨st.schedules.map fun x =>
            if isDue now x then { x with next_run := cnr x now } else x,
          ⟨st.db.tasks ++ created,
           st.db.nextId + (st.schedules.filter (isDue now)).length⟩⟩ ∧
      List.Perm
        (created.map fun t => (t.name, t.status, t.submitted, t.arguments, t.user))
        ((st.schedules.filter (isDue now)).map fun s =>
          ("schedule", "Waiting", some now, s.name, s.user)) := by
  have hperm := sortDue_perm (st.schedules.filter (isDue now))
  refine ⟨harvestKids now (sortDue (st.schedules.filter (isDue now))) st.db.nextId, ?_, ?_⟩
  · rw [createScheduledTasks_state cnr atOutcome databases database now st hdb,
      harvestLoop_eq]
    have hfnd : ((st.schedules.filter (isDue now)).map ScheduledTask.name).Nodup :=
      List.Nodup.sublist ((List.filter_sublist _).map ScheduledTask.name) hnd
    have hdnd : ((sortDue (st.schedules.filter (isDue now))).map ScheduledTask.name).Nodup :=
      ((hperm.map ScheduledTask.name).nodup_iff).2 hfnd
    have hsub : ∀ s ∈ sortDue (st.schedules.filter (isDue now)), s ∈ st.schedules :=
      fun s hs => (List.mem_filter.1 (hperm.mem_iff.1 hs)).1
    rw [applyRuns_eq_map cnr now _ _ hnd hsub hdnd, hperm.length_eq]
    have hinj : ∀ x ∈ st.schedules, ∀ y ∈ st.schedules, x.name = y.name → x = y :=
      fun x hx y hy hxy => List.inj_on_of_nodup_map hnd hx hy hxy
    have hcond : (st.schedules.map fun x =>
        if x.name ∈ (sortDue (st.schedules.filter (isDue now))).map ScheduledTask.name
        then { x with next_run := cnr x now } else x) =
        st.schedules.map fun x =>
          if isDue now x then { x with next_run := cnr x now } else x := by
      refine List.map_congr_left fun x hx => ?_
      by_cases hd : isDue now x = true
      · have hmem : x.name ∈
            (sortDue (st.schedules.filter (isDue now))).map ScheduledTask.name :=
          List.mem_map_of_mem _ (hperm.mem_iff.2 (List.mem_filter.2 ⟨hx, hd⟩))
        rw [if_pos hmem, if_pos hd]
      · have hmem : x.name ∉
            (sortDue (st.schedules.filter (isDue now))).map ScheduledTask.name := by
          intro hmem
          obtain ⟨y, hy, hyx⟩ := List.mem_map.1 hmem
          have hyf := hperm.mem_iff.1 hy
          have hy2 := List.mem_filter.1 hyf
          have hxy : y = x := hinj y hy2.1 x hx hyx
          exact hd (hxy ▸ hy2.2)
        rw [if_neg hmem, if_neg hd]
    rw [hcond]
  · rw [harvestKids_map]
    exact hperm.map _

/-- C1 witness: the harvester theorem applied at a store holding one due
and one future schedule. -/
theorem harvester_one_task_per_due_schedule_witness :
    (([schedFuture, schedDueA].map ScheduledTask.name).Nodup) ∧
    ∃ created : List Task,
      (createScheduledTasks (fun _ n => some (n + 10)) (some 0) ["default"] "default" 5
          ⟨[schedFuture, schedDueA], ⟨[], 0⟩⟩).state =
        ⟨[schedFuture, schedDueA].map fun x =>
            if isDue 5 x then { x with next_run := (fun _ n => some (n + 10)) x 5 } else x,
          ⟨[] ++ created, 0 + ([schedFuture, schedDueA].filter (isDue 5)).length⟩⟩ ∧
      List.Perm
        (created.map fun t => (t.name, t.status, t.submitted, t.arguments, t.user))
        (([schedFuture, schedDueA].filter (isDue 5)).map fun s =>
          ("schedule", "Waiting", some 5, s.name, s.user)) :=
  ⟨by decide, harvester_one_task_per_due_schedule (fun _ n => some (n + 10)) (some 0)
    ["default"] "default" 5 ⟨[schedFuture, schedDueA], ⟨[], 0⟩⟩ (by decide) (by decide)⟩

/-! ### C7 -/

lemma launchCount (now : Nat) (st : HarvestState) :
    (if (!(sortDue (st.schedules.filter (isDue now))).isEmpty) = true
      then [Effect.launchWorker] else []).count Effect.launchWorker =
      if st.schedules.filter (isDue now) = [] then 0 else 1 := by
  by_cases hf : st.schedules.filter (isDue now) = []
  · simp [hf, sortDue]
  · rw [if_neg hf]
    cases hdue : sortDue (st.schedules.filter (isDue now)) with
    | nil => exact absurd ((sortDue_eq_nil_iff _).1 hdue) hf
    | cons a as => simp [hdue]

/-- C7: after the harvest transaction commits, the worker-launch signal is
emitted exactly once when at least one schedule was due (so at least one
task was created), and not at all when no schedule was due. -/
theorem harvester_signals_worker_once
    (cnr : ScheduledTask → Nat → Option Nat) (atOutcome : Option Int)
    (databases : List String) (database : String) (now : Nat) (st : HarvestState)
    (hdb : database ∈ databases) :
    (createScheduledTasks cnr atOutcome databases database now st).effects.count
        Effect.launchWorker =
      if st.schedules.filter (isDue now) = [] then 0 else 1 := by
  have harm : ∀ (t : Nat) (l : List Effect),
      (l ++ [Effect.armTimer t]).count Effect.launchWorker =
        l.count Effect.launchWorker := by
    intro t l
    rw [List.count_append]
    simp [List.count_cons]
  cases hmin : minNextRun
      (harvestLoop cnr now (sortDue (st.schedules.filter (isDue now))) st).schedules with
  | none =>
    simp only [createScheduledTasks, if_pos hdb, hmin]
    exact launchCount now st
  | some t =>
    cases atOutcome with
    | none =>
      simp only [createScheduledTasks, if_pos hdb, hmin, harm]
      exact launchCount now st
    | some rc =>
      simp only [createScheduledTasks, if_pos hdb, hmin, harm]
      exact launchCount now st

/-- C7 witness: the worker-launch theorem applied at a store holding one
due schedule. -/
theorem harvester_signals_worker_once_witness :
    "default" ∈ ["default"] ∧
    (createScheduledTasks (fun _ _ => none) (some 0) ["default"] "default" 5
        ⟨[schedDueA], ⟨[], 0⟩⟩).effects.count Effect.launchWorker =
      if [schedDueA].filter (isDue 5) = [] then 0 else 1 :=
  ⟨by decide, harvester_signals_worker_once (fun _ _ => none) (some 0) ["default"]
    "default" 5 ⟨[schedDueA], ⟨[], 0⟩⟩ (by decide)⟩

/-! ### C8 -/

/-- C8: when after harvesting no schedule carries a non-null next-run
timestamp, the Rearmer makes no timer-registration call and no error is
raised (and the rearm phase writes no further state: the committed state
is exactly the harvest-loop state). -/
theorem rearmer_silent_when_no_next_due
    (cnr : ScheduledTask → Nat → Option Nat) (atOutcome : Option Int)
    (databases : List String) (database : String) (now : Nat) (st : HarvestState)
    (hdb : database ∈ databases)
    (hnone : ∀ s ∈ (createScheduledTasks cnr atOutcome databases database now
        st).state.schedules, s.next_run = none) :
    (createScheduledTasks cnr atOutcome databases database now st).effects.filter
        Effect.isArm = [] ∧
    (createScheduledTasks cnr atOutcome databases database now st).err = none := by
  rw [createScheduledTasks_state cnr atOutcome databases database now st hdb] at hnone
  have hmin : minNextRun
      (harvestLoop cnr now (sortDue (st.schedules.filter (isDue now))) st).schedules =
      none := minNextRun_eq_none _ hnone
  constructor
  · simp only [createScheduledTasks, if_pos hdb, hmin]
    by_cases hie : (sortDue (st.schedules.filter (isDue now))).isEmpty = true
    · simp [hie]
    · simp [hie, Effect.isArm]
  · simp [createScheduledTasks, if_pos hdb, hmin]

/-- C8 witness: the silent-rearm theorem applied at a store whose only
schedule has a null next-run. -/
theorem rearmer_silent_when_no_next_due_witness :
    (∀ s ∈ (createScheduledTasks (fun _ _ => none) (some 0) ["default"] "default" 5
        ⟨[schedNull], ⟨[], 0⟩⟩).state.schedules, s.next_run = none) ∧
    ((createScheduledTasks (fun _ _ => none) (some 0) ["default"] "default" 5
        ⟨[schedNull], ⟨[], 0⟩⟩).effects.filter Effect.isArm = [] ∧
      (createScheduledTasks (fun _ _ => none) (some 0) ["default"] "default" 5
        ⟨[schedNull], ⟨[], 0⟩⟩).err = none) :=
  ⟨by decide, rearmer_silent_when_no_next_due (fun _ _ => none) (some 0) ["default"]
    "default" 5 ⟨[schedNull], ⟨[], 0⟩⟩ (by decide) (by decide)⟩

/-! ### C2 -/

/-- C2: two concurrent harvest scans under skip-locked claiming.  The
skip-locked database primitive is not part of the source file; it is
modelled from the spec as its guarantee: the due set is split between the
two harvesters (each due row is processed by exactly the scan that locked
it).  Running the two claimed batches then yields one created task per due
schedule, with arguments equal to the schedule's name and no duplicates. -/
theorem concurrent_harvest_one_task_each
    (cnr : ScheduledTask → Nat → Option Nat) (now : Nat) (st : HarvestState)
    (claimedA claimedB : List ScheduledTask)
    (hsplit : List.Perm (claimedA ++ claimedB) (st.schedules.filter (isDue now)))
    (hnd : (st.schedules.map ScheduledTask.name).Nodup) :
    List.Perm
      (((harvestLoop cnr now claimedB (harvestLoop cnr now claimedA st)).db.tasks.drop
          st.db.tasks.length).map Task.arguments)
      ((st.schedules.filter (isDue now)).map ScheduledTask.name) ∧
    (((harvestLoop cnr now claimedB (harvestLoop cnr now claimedA st)).db.tasks.drop
        st.db.tasks.length).map Task.arguments).Nodup := by
  have htasks : (harvestLoop cnr now claimedB (harvestLoop cnr now claimedA st)).db.tasks =
      st.db.tasks ++ (harvestKids now claimedA st.db.nextId ++
        harvestKids now claimedB (st.db.nextId + claimedA.length)) := by
    rw [harvestLoop_eq, harvestLoop_eq]
    simp [List.append_assoc]
  have hargs : (harvestKids now claimedA st.db.nextId ++
      harvestKids now claimedB (st.db.nextId + claimedA.length)).map Task.arguments =
      (claimedA ++ claimedB).map ScheduledTask.name := by
    rw [List.map_append, harvestKids_args, harvestKids_args, ← List.map_append]
  rw [htasks, List.drop_left, hargs]
  have hfnd : ((st.schedules.filter (isDue now)).map ScheduledTask.name).Nodup :=
    List.Nodup.sublist ((List.filter_sublist _).map ScheduledTask.name) hnd
  exact ⟨hsplit.map ScheduledTask.name,
    ((hsplit.map ScheduledTask.name).nodup_iff).2 hfnd⟩

/-- C2 witness: the concurrent-harvest theorem applied at a store with two
due schedules, one claimed by each scan. -/
theorem concurrent_harvest_one_task_each_witness :
    List.Perm ([schedDueA] ++ [schedDueC])
      ([schedFuture, schedDueA, schedDueC].filter (isDue 5)) ∧
    (List.Perm
      (((harvestLoop (fun _ _ => none) 5 [schedDueC]
          (harvestLoop (fun _ _ => none) 5 [schedDueA]
            ⟨[schedFuture, schedDueA, schedDueC], ⟨[], 0⟩⟩)).db.tasks.drop
          ([] : List Task).length).map Task.arguments)
      (([schedFuture, schedDueA, schedDueC].filter (isDue 5)).map ScheduledTask.name) ∧
    (((harvestLoop (fun _ _ => none) 5 [schedDueC]
        (harvestLoop (fun _ _ => none) 5 [schedDueA]
          ⟨[schedFuture, schedDueA, schedDueC], ⟨[], 0⟩⟩)).db.tasks.drop
        ([] : List Task).length).map Task.arguments).Nodup) :=
  ⟨by decide, concurrent_harvest_one_task_each (fun _ _ => none) 5
    ⟨[schedFuture, schedDueA, schedDueC], ⟨[], 0⟩⟩ [schedDueA] [schedDueC]
    (by decide) (by decide)⟩

/-! ### C4 -/

/-- C4: when step k of a schedule has abort-on-failure set, its child ends
Failed, and no earlier step triggered an abort, the run creates exactly k
child tasks — the k-1 prefix children plus the failing child; steps
k+1..N are never started — and the parent task ends with status Failed,
message "Failed at step k of N", finished set (and the process id cleared
by the failure handler), the Exception propagating to the caller. -/
theorem executor_abort_on_failure
    (env : ExecEnv) (opts : ExecOptions) (now pid : Nat) (st : ExecState)
    (sched : ScheduledTask) (pre : List Step) (stepK : Step) (post : List Step)
    (hdb : opts.database ∈ env.databases)
    (hs : env.schedules.find? (fun s => s.name == opts.schedule) = some sched)
    (hu : opts.user = none) (ht : opts.task = none)
    (hsteps : sched.tasks = pre ++ stepK :: post)
    (hna : noAbortUpTo env.adapter pre 1)
    (hfail : env.adapter (1 + pre.length) = "Failed")
    (habort : stepK.abort_on_failure = true)
    (hwf : ∀ t ∈ st.db.tasks, t.id < st.db.nextId) :
    executeScheduledTask env opts now pid st =
      (⟨⟨(st.db.tasks ++
          [{ id := st.db.nextId, name := "scheduletasks", submitted := some now,
             started := some now, finished := some now, status := "Failed",
             message := "Failed at step " ++ toString (1 + pre.length) ++ " of "
               ++ toString sched.tasks.length,
             user := none, processid := none, arguments := "" }]) ++
          (loopKids env.adapter none now pre 1 (st.db.nextId + 1)
            ++ [{ stepTask none now stepK with
                  id := st.db.nextId + 1 + pre.length,
                  status := "Failed" }]),
         st.db.nextId + 1 + pre.length + 1⟩, none⟩,
       some (.exc ("Failed at step " ++ toString (1 + pre.length) ++ " of "
         ++ toString sched.tasks.length))) := by
  have hini : execInit none opts.task now pid st.db =
      .ok (st.db.nextId, ⟨st.db.tasks ++
        [{ id := st.db.nextId, name := "scheduletasks", submitted := some now,
           started := some now, finished := none, status := "0%", message := "",
           user := none, processid := some pid, arguments := "" }], st.db.nextId + 1⟩) := by
    rw [ht]
    rfl
  have hlt1 : ∀ t ∈ st.db.tasks ++
      [{ id := st.db.nextId, name := "scheduletasks", submitted := some now,
         started := some now, finished := none, status := "0%", message := "",
         user := none, processid := some pid, arguments := "" }],
      t.id < st.db.nextId + 1 := by
    intro t ht2
    rcases List.mem_append.1 ht2 with h | h
    · exact Nat.lt_succ_of_lt (hwf t h)
    · rw [List.mem_singleton.1 h]
      exact Nat.lt_succ_self _
  have hloop := execLoop_abort env.adapter none st.db.nextId
    ((pre ++ stepK :: post).length) now pre stepK post 1 []
    ⟨st.db.tasks ++
      [{ id := st.db.nextId, name := "scheduletasks", submitted := some now,
         started := some now, finished := none, status := "0%", message := "",
         user := none, processid := some pid, arguments := "" }], st.db.nextId + 1⟩
    hlt1 (Nat.lt_succ_self _) hna hfail habort
  have habortparent : (List.map (fun (t : Task) => if t.id = st.db.nextId then
      { t with
        message := "Failed at step " ++ toString (1 + pre.length) ++ " of "
          ++ toString ((pre ++ stepK :: post).length),
        status := "Failed", finished := some now } else t)
      (st.db.tasks ++
        [{ id := st.db.nextId, name := "scheduletasks", submitted := some now,
           started := some now, finished := none, status := "0%", message := "",
           user := none, processid := some pid, arguments := "" }])) =
      st.db.tasks ++
        [{ id := st.db.nextId, name := "scheduletasks", submitted := some now,
           started := some now, finished := some now, status := "Failed",
           message := "Failed at step " ++ toString (1 + pre.length) ++ " of "
             ++ toString ((pre ++ stepK :: post).length),
           user := none, processid := some pid, arguments := "" }] := by
    rw [List.map_append, List.map_cons, List.map_nil,
      map_upd_self _ _ _ (fun t ht2 => Nat.ne_of_lt (hwf t ht2)), if_pos rfl]
  have hkids : ∀ t ∈ (loopKids env.adapter none now pre 1 (st.db.nextId + 1)
      ++ [{ stepTask none now stepK with
            id := st.db.nextId + 1 + pre.length,
            status := env.adapter (1 + pre.length) }]), t.id ≠ st.db.nextId := by
    intro t ht2
    rcases List.mem_append.1 ht2 with h | h
    · have := loopKids_ids env.adapter none now pre 1 (st.db.nextId + 1) t h
      omega
    · rw [List.mem_singleton.1 h]
      show st.db.nextId + 1 + pre.length ≠ st.db.nextId
      omega
  have hhandler : DBState.updateTask
      ⟨(st.db.tasks ++
        [{ id := st.db.nextId, name := "scheduletasks", submitted := some now,
           started := some now, finished := some now, status := "Failed",
           message := "Failed at step " ++ toString (1 + pre.length) ++ " of "
             ++ toString ((pre ++ stepK :: post).length),
           user := none, processid := some pid, arguments := "" }]) ++
        (loopKids env.adapter none now pre 1 (st.db.nextId + 1)
          ++ [{ stepTask none now stepK with
                id := st.db.nextId + 1 + pre.length,
                status := env.adapter (1 + pre.length) }]),
       st.db.nextId + 1 + pre.length + 1⟩ st.db.nextId
      (fun t => { t with
        status := "Failed",
        message := "Failed at step " ++ toString (1 + pre.length) ++ " of "
          ++ toString ((pre ++ stepK :: post).length),
        finished := some now, processid := none }) =
      ⟨(st.db.tasks ++
        [{ id := st.db.nextId, name := "scheduletasks", submitted := some now,
           started := some now, finished := some now, status := "Failed",
           message := "Failed at step " ++ toString (1 + pre.length) ++ " of "
             ++ toString ((pre ++ stepK :: post).length),
           user := none, processid := none, arguments := "" }]) ++
        (loopKids env.adapter none now pre 1 (st.db.nextId + 1)
          ++ [{ stepTask none now stepK with
                id := st.db.nextId + 1 + pre.length,
                status := env.adapter (1 + pre.length) }]),
       st.db.nextId + 1 + pre.length + 1⟩ := by
    unfold DBState.updateTask
    rw [List.map_append, List.map_append, List.map_append,
      List.map_cons, List.map_nil, List.map_cons, List.map_nil,
      map_upd_self _ _ _ (fun t ht2 => Nat.ne_of_lt (hwf t ht2)), if_pos rfl,
      map_upd_self _ _ _ (fun t ht2 h2 => hkids t (List.mem_append_left _ ht2) h2),
      if_neg (hkids _ (List.mem_append_right _ (List.mem_singleton.2 rfl)))]
  simp only [executeScheduledTask, if_pos hdb, hs, hu, execTry, hini, hsteps,
    execMain, hloop, habortparent, PyExc.text, hhandler]
  rw [hfail]

/-- C4 witness: the abort theorem applied at a two-step schedule whose
first step aborts on failure and fails. -/
theorem executor_abort_on_failure_witness :
    ({ name := "importA", arguments := "", abort_on_failure := true } : Step).abort_on_failure
      = true ∧
    executeScheduledTask envAbort optsFresh 5 99 ⟨⟨[], 0⟩, none⟩ =
      (⟨⟨[{ id := 0, name := "scheduletasks", submitted := some 5, started := some 5,
            finished := some 5, status := "Failed", message := "Failed at step 1 of 2",
            user := none, processid := none, arguments := "" },
          { id := 1, name := "importA", submitted := some 5, started := none,
            finished := none, status := "Failed", message := "", user := none,
            processid := none, arguments := "" }], 2⟩, none⟩,
       some (.exc "Failed at step 1 of 2")) :=
  ⟨rfl, by
    exact executor_abort_on_failure envAbort optsFresh 5 99 ⟨⟨[], 0⟩, none⟩ schedAbort
      [] { name := "importA", arguments := "", abort_on_failure := true }
      [{ name := "importB", arguments := "", abort_on_failure := false }]
      (by decide) rfl rfl rfl rfl trivial rfl rfl (by intro t ht2; cases ht2)⟩

end Sched
